import Mathlib

/- Verification development for the ingestion-pipeline recovery core of the
   backend-AIbook repository.  The Lean definitions below are shallow
   embeddings of the Python sources:

     services/state_service.py      (PipelineState, StateService)
     services/resume_service.py     (ResumeService)
     services/error_service.py      (ErrorService)
     services/duplicate_service.py  (DuplicateService)
     crawlers/rate_limiter.py       (CrawlRateLimiter)

   Modelling conventions:
   - datetime values are carried as an abstract tick (a natural number); the
     stdlib pair datetime.isoformat / datetime.fromisoformat is an exact
     inverse pair and is modelled as the identity coding.
   - Python float delays are modelled as rationals; all delay arithmetic in
     the source (doubling, min with 60.0) is exact in binary floating point
     for the values involved, so the rational model is faithful.
   - dictionaries with a fixed key set (checkpoint_data, kwargs of
     update_state) are modelled as structures of optional fields, a missing
     key being none.
   - the sha256 digest used for duplicate fingerprints is modelled by the
     digested string itself (the digest is injective on inputs for the
     purposes of this development; collisions are out of scope).
   - network effects (crawl_single_page, process_and_store_chunks) are
     modelled by an oracle giving the outcome of each attempt. -/

namespace AIBook

/-- Abstract datetime tick (datetime.datetime). -/
abbrev DT := Nat

/-- Work units are source URLs. -/
abbrev Url := String

/-- Model of the checkpoint_data dictionary written by
state_service.create_initial_state and resume_service: a fixed key set
with every key optional (a dict missing the key maps to none). -/
structure CheckpointData where
  initial_urls : Option (List Url) := none
  current_url_index : Option Nat := none
  last_processed_url : Option (Option Url) := none
deriving Repr, DecidableEq

/-- Python dict truthiness for checkpoint_data: an empty dict is falsy. -/
def CheckpointData.isEmptyDict (cd : CheckpointData) : Bool :=
  cd.initial_urls.isNone && cd.current_url_index.isNone && cd.last_processed_url.isNone

/-- PipelineState dataclass (state_service.py lines 11-52).  The claims
quantify over well-formed states: the URL lists are actual lists (the
dataclass defaults them to None, but every state built by the services
carries lists). -/
structure PipelineState where
  session_id : String
  status : String
  start_time : DT
  end_time : Option DT := none
  processed_urls : List Url := []
  failed_urls : List Url := []
  total_chunks : Nat := 0
  processed_chunks : Nat := 0
  checkpoint_data : Option CheckpointData := none
  error_message : Option String := none
deriving Repr, DecidableEq

/-- The dictionary produced by PipelineState.to_dict: same key set, datetime
fields carried through the (elided) ISO-8601 coding. -/
structure StateDict where
  session_id : String
  status : String
  start_time : DT
  end_time : Option DT
  processed_urls : List Url
  failed_urls : List Url
  total_chunks : Nat
  processed_chunks : Nat
  checkpoint_data : Option CheckpointData
  error_message : Option String
deriving Repr, DecidableEq

/-- PipelineState.to_dict (state_service.py lines 27-34): asdict, then
start_time is ISO-encoded; end_time is ISO-encoded only when truthy (a
datetime is always truthy), so a none end_time stays none. -/
def PipelineState.to_dict (s : PipelineState) : StateDict :=
  { session_id := s.session_id
    status := s.status
    start_time := s.start_time
    end_time := match s.end_time with
      | some t => some t
      | none => none
    processed_urls := s.processed_urls
    failed_urls := s.failed_urls
    total_chunks := s.total_chunks
    processed_chunks := s.processed_chunks
    checkpoint_data := s.checkpoint_data
    error_message := s.error_message }

/-- PipelineState.from_dict (state_service.py lines 36-52): required keys
read directly, optional keys read with data.get defaults; end_time is
decoded only when the stored value is truthy (an ISO string is nonempty,
hence truthy, so truthiness coincides with presence). -/
def PipelineState.from_dict (d : StateDict) : PipelineState :=
  { session_id := d.session_id
    status := d.status
    start_time := d.start_time
    end_time := match d.end_time with
      | some t => some t
      | none => none
    processed_urls := d.processed_urls
    failed_urls := d.failed_urls
    total_chunks := d.total_chunks
    processed_chunks := d.processed_chunks
    checkpoint_data := d.checkpoint_data
    error_message := d.error_message }

/-- StateService.create_initial_state (state_service.py lines 96-114). -/
def create_initial_state (session_id : String) (initial_urls : List Url) (now : DT) :
    PipelineState :=
  { session_id := session_id
    status := "running"
    start_time := now
    end_time := none
    processed_urls := []
    failed_urls := []
    total_chunks := 0
    processed_chunks := 0
    checkpoint_data := some
      { initial_urls := some initial_urls
        current_url_index := some 0
        last_processed_url := some none }
    error_message := none }

/-- The kwargs of StateService.update_state: every settable attribute,
a key being absent modelled as none. -/
structure StateUpd where
  session_id : Option String := none
  status : Option String := none
  start_time : Option DT := none
  end_time : Option (Option DT) := none
  processed_urls : Option (List Url) := none
  failed_urls : Option (List Url) := none
  total_chunks : Option Nat := none
  processed_chunks : Option Nat := none
  checkpoint_data : Option (Option CheckpointData) := none
  error_message : Option (Option String) := none
deriving Repr, DecidableEq

/-- StateService.update_state (state_service.py lines 116-131): apply every
named attribute, then stamp end_time with the current time if the resulting
status is completed or failed and end_time is not already set. -/
def update_state (st : PipelineState) (u : StateUpd) (now : DT) : PipelineState :=
  let st1 : PipelineState :=
    { session_id := u.session_id.getD st.session_id
      status := u.status.getD st.status
      start_time := u.start_time.getD st.start_time
      end_time := u.end_time.getD st.end_time
      processed_urls := u.processed_urls.getD st.processed_urls
      failed_urls := u.failed_urls.getD st.failed_urls
      total_chunks := u.total_chunks.getD st.total_chunks
      processed_chunks := u.processed_chunks.getD st.processed_chunks
      checkpoint_data := u.checkpoint_data.getD st.checkpoint_data
      error_message := u.error_message.getD st.error_message }
  if (st1.status == "completed" || st1.status == "failed") && st1.end_time.isNone then
    { st1 with end_time := some now }
  else st1

/-- StateService.add_processed_url (state_service.py lines 133-139). -/
def add_processed_url (st : PipelineState) (url : Url) : PipelineState :=
  if url ∈ st.processed_urls then st
  else { st with processed_urls := st.processed_urls ++ [url] }

/-- StateService.add_failed_url (state_service.py lines 141-149). -/
def add_failed_url (st : PipelineState) (url : Url) : PipelineState :=
  if url ∈ st.failed_urls then st
  else { st with failed_urls := st.failed_urls ++ [url] }

/-- StateService.increment_chunk_count (state_service.py lines 151-156). -/
def increment_chunk_count (st : PipelineState) (count : Nat) : PipelineState :=
  { st with total_chunks := st.total_chunks + count }

/-- StateService.update_checkpoint_data (state_service.py lines 171-178):
dict.update semantics, keys present in the update overwrite. -/
def update_checkpoint_data (st : PipelineState) (upd : CheckpointData) : PipelineState :=
  let old := st.checkpoint_data.getD ⟨none, none, none⟩
  let merged : CheckpointData :=
    { initial_urls := upd.initial_urls.orElse fun _ => old.initial_urls
      current_url_index := upd.current_url_index.orElse fun _ => old.current_url_index
      last_processed_url := upd.last_processed_url.orElse fun _ => old.last_processed_url }
  { st with checkpoint_data := some merged }

/-- Lower-casing of an error message (str.lower in
ErrorService.categorize_error). -/
def strLower (s : String) : String := ⟨s.data.map Char.toLower⟩

/-- Python substring test, keyword in error_str. -/
def strContains (s sub : String) : Bool := decide (sub.data <:+: s.data)

/-- Test whether any of the keywords occurs in the message. -/
def containsAnyKW (s : String) (kws : List String) : Bool :=
  kws.any (strContains s)

/-- ErrorService.categorize_error (error_service.py lines 128-147). -/
def categorize_error (msg : String) : String :=
  let e := strLower msg
  if containsAnyKW e ["timeout", "connection", "network"] then "network"
  else if containsAnyKW e ["rate", "limit", "quota", "exceeded"] then "rate_limit"
  else if containsAnyKW e ["api", "key", "auth", "unauthorized", "forbidden"] then "authentication"
  else if containsAnyKW e ["not found", "404", "missing"] then "not_found"
  else if containsAnyKW e ["server", "500", "internal", "error"] then "server"
  else if containsAnyKW e ["invalid", "malformed", "bad request", "400"] then "client"
  else "unknown"

/-- ErrorService.should_retry_error (error_service.py lines 149-157). -/
def should_retry_error (msg : String) : Bool :=
  ["network", "server", "rate_limit"].contains (categorize_error msg)

/-- One operation under retry: invocation index to outcome (raised error
message or returned value). -/
abbrev RetryOp (α : Type) := Nat → Except String α

/-- Loop body of ErrorService.retry_with_backoff (error_service.py lines
92-118): for attempt in range(max_retries + 1), return on success, re-raise
on the final attempt.  The first argument is the number of attempts still
allowed after the current one; the second is the current attempt index.
Returns the outcome together with the number of invocations made. -/
def retryGo {α : Type} (op : RetryOp α) : Nat → Nat → Except String α × Nat
  | 0, attempt =>
    (match op attempt with
      | .ok a => (.ok a, attempt + 1)
      | .error e => (.error e, attempt + 1))
  | r + 1, attempt =>
    (match op attempt with
      | .ok a => (.ok a, attempt + 1)
      | .error _ => retryGo op r (attempt + 1))

/-- ErrorService.retry_with_backoff (error_service.py lines 92-118),
with sleeping and jitter elided (they do not affect the result or the
invocation count). -/
def retry_with_backoff {α : Type} (op : RetryOp α) (max_retries : Nat) :
    Except String α × Nat :=
  retryGo op max_retries 0

/-- Lookup in an association list with default (Python dict.get /
defaultdict read). -/
def lookupD {α : Type} (l : List (String × α)) (k : String) (d : α) : α :=
  (((l.find? fun p => p.1 == k)).map Prod.snd).getD d

/-- Key assignment in an association list (Python dict item assignment). -/
def setKey {α : Type} (l : List (String × α)) (k : String) (v : α) :
    List (String × α) :=
  (k, v) :: l.filter fun p => !(p.1 == k)

/-- CrawlRateLimiter state (rate_limiter.py lines 135-148): the default
delay, per-domain delay overrides, and per-domain consecutive failure
counts.  last_request_time and the embedded token-bucket windows are not
modelled (they do not enter the delay computation under scrutiny). -/
structure CrawlLimiter where
  default_delay : ℚ
  domain_delays : List (String × ℚ) := []
  failed_requests : List (String × Nat) := []
deriving Repr, DecidableEq

/-- CrawlRateLimiter.should_delay_request (rate_limiter.py lines 159-175):
the base delay for the host, doubled per recorded consecutive failure with
the exponent clamped at 5, the whole capped at 60 seconds. -/
def should_delay_request (L : CrawlLimiter) (host : String) : ℚ :=
  let delay := lookupD L.domain_delays host L.default_delay
  let fc := lookupD L.failed_requests host 0
  if 0 < fc then min (delay * 2 ^ min fc 5) 60 else delay

/-- CrawlRateLimiter.record_request (rate_limiter.py lines 177-188):
a failure increments the failure count of the host, a success resets it
to zero. -/
def record_request (L : CrawlLimiter) (host : String) (success : Bool) : CrawlLimiter :=
  if success then
    { L with failed_requests := setKey L.failed_requests host 0 }
  else
    { L with failed_requests :=
        setKey L.failed_requests host (lookupD L.failed_requests host 0 + 1) }

/-- A run of n consecutive failed requests recorded for one host. -/
def recordFailures (L : CrawlLimiter) (host : String) : Nat → CrawlLimiter
  | 0 => L
  | n + 1 => record_request (recordFailures L host n) host false

/-- The fields of a DocumentChunk that enter duplicate detection. -/
structure DocumentChunk where
  id : String
  content : String
  source_url : String
deriving Repr, DecidableEq

/-- The string digested by DuplicateService.detect_duplicates_by_content and
remove_duplicates_by_content; the sha256 applied on top is modelled as the
identity on this string. -/
def contentHash (c : DocumentChunk) : String :=
  c.content ++ "_" ++ c.source_url

/-- The identity of a duplicate as reported by detect_duplicates_by_content
(chunk_id and source_url fields of the emitted record). -/
structure DupRecord where
  chunk_id : String
  source_url : String
deriving Repr, DecidableEq

/-- Loop of DuplicateService.detect_duplicates_by_content
(duplicate_service.py lines 19-43), carrying the seen_hashes set as a list
of hashes. -/
def detectDupsGo : List DocumentChunk → List String → List DupRecord
  | [], _ => []
  | c :: cs, seen =>
    if contentHash c ∈ seen then
      { chunk_id := c.id, source_url := c.source_url } :: detectDupsGo cs seen
    else
      detectDupsGo cs (contentHash c :: seen)

/-- DuplicateService.detect_duplicates_by_content. -/
def detect_duplicates_by_content (chunks : List DocumentChunk) : List DupRecord :=
  detectDupsGo chunks []

/-- Loop of DuplicateService.remove_duplicates_by_content
(duplicate_service.py lines 45-61). -/
def removeDupsGo : List DocumentChunk → List String → List DocumentChunk
  | [], _ => []
  | c :: cs, seen =>
    if contentHash c ∈ seen then
      removeDupsGo cs seen
    else
      c :: removeDupsGo cs (contentHash c :: seen)

/-- DuplicateService.remove_duplicates_by_content. -/
def remove_duplicates_by_content (chunks : List DocumentChunk) : List DocumentChunk :=
  removeDupsGo chunks []

/-- Modelled from the claim wording: the chunks of a batch that are
fingerprint-equal duplicates of a chunk occurring strictly earlier in the
batch, carrying the list of earlier chunks during the scan. -/
def specDups : List DocumentChunk → List DocumentChunk → List DocumentChunk
  | [], _ => []
  | c :: cs, earlier =>
    if earlier.any fun d => contentHash d == contentHash c then
      c :: specDups cs (earlier ++ [c])
    else
      specDups cs (earlier ++ [c])

/-- Modelled from the claim wording: the chunks of a batch with no
fingerprint-equal chunk strictly earlier in the batch (the unique ones). -/
def specUniques : List DocumentChunk → List DocumentChunk → List DocumentChunk
  | [], _ => []
  | c :: cs, earlier =>
    if earlier.any fun d => contentHash d == contentHash c then
      specUniques cs (earlier ++ [c])
    else
      c :: specUniques cs (earlier ++ [c])

/-- Outcome of one attempt at a URL inside the resume loop
(resume_service.py lines 82-111): the crawl and store calls either produce
n chunks that store successfully, produce no chunks, raise an exception, or
return a result dict with success false. -/
inductive AttemptOutcome where
  | success (numChunks : Nat)
  | noChunks
  | raise (msg : String)
  | storeFalse
deriving Repr, DecidableEq

/-- Oracle for the external services: outcome of the i-th attempt at a
URL. -/
abbrev Oracle := Url → Nat → AttemptOutcome

/-- Body of the retry while-loop in ResumeService._process_remaining_urls
(resume_service.py lines 82-111), mapping one attempt outcome to the new
pipeline state, retry count and success flag. -/
def urlStep (out : AttemptOutcome) (url : Url) (maxRetries : Nat)
    (st : PipelineState) (retry : Nat) : PipelineState × Nat × Bool :=
  match out with
  | .success n => (increment_chunk_count (add_processed_url st url) n, retry, true)
  | .noChunks => (add_processed_url st url, retry, true)
  | .storeFalse => (st, retry, false)
  | .raise _ =>
    let retry' := retry + 1
    if retry' < maxRetries then (st, retry', false)
    else (add_failed_url st url, retry', false)

/-- The while-loop of ResumeService._process_remaining_urls with explicit
fuel: while not success and retry_count < max_retries.  The Python loop is
unbounded; with fuel at least max_retries the fuelled loop agrees with it
whenever every failing attempt raises (each iteration then either sets
success or increments retry_count). -/
def urlLoop (oracle : Oracle) (url : Url) (maxRetries : Nat) :
    Nat → Nat → Nat → Bool → PipelineState → PipelineState × Nat × Bool
  | 0, _, retry, success, st => (st, retry, success)
  | fuel + 1, iter, retry, success, st =>
    if success = false ∧ retry < maxRetries then
      let r := urlStep (oracle url iter) url maxRetries st retry
      urlLoop oracle url maxRetries fuel (iter + 1) r.2.1 r.2.2 r.1
    else (st, retry, success)

/-- The state after the per-URL retry loop of _process_remaining_urls. -/
def processUrlState (oracle : Oracle) (maxRetries : Nat)
    (st : PipelineState) (url : Url) : PipelineState :=
  (urlLoop oracle url maxRetries maxRetries 0 0 false st).1

/-- One iteration of the for-loop of _process_remaining_urls (resume
lines 69-114): update checkpoint position, then run the retry loop. -/
def resumeUnitStep (oracle : Oracle) (maxRetries : Nat)
    (st : PipelineState) (url : Url) : PipelineState :=
  let st1 := update_checkpoint_data st
    { initial_urls := none
      current_url_index := some st.processed_urls.length
      last_processed_url := some (some url) }
  processUrlState oracle maxRetries st1 url

/-- The for-loop of _process_remaining_urls, returning the final state and
the list of states persisted by save_state after each URL. -/
def processRemainingGo (oracle : Oracle) (maxRetries : Nat) :
    List Url → PipelineState → PipelineState × List PipelineState
  | [], st => (st, [])
  | url :: rest, st =>
    let st' := resumeUnitStep oracle maxRetries st url
    let r := processRemainingGo oracle maxRetries rest st'
    (r.1, st' :: r.2)

/-- ResumeService._process_remaining_urls (resume_service.py lines 65-122):
run the per-URL loop over the remaining URLs, then transition a still
running state to completed; the returned trace lists every state passed to
save_state, in order. -/
def process_remaining_urls (oracle : Oracle) (maxRetries : Nat) (now : DT)
    (remaining : List Url) (st : PipelineState) :
    PipelineState × List PipelineState :=
  let r := processRemainingGo oracle maxRetries remaining st
  let fin :=
    if r.1.status == "running" then
      update_state r.1 { status := some "completed" } now
    else r.1
  (fin, r.2 ++ [fin])

/-- The remaining-work computation of ResumeService.resume_pipeline
(resume_service.py lines 46-51): the suffix of the checkpointed initial
URL list from the checkpointed index on. -/
def resume_remaining (st : PipelineState) : List Url :=
  match st.checkpoint_data with
  | none => []
  | some cd => (cd.initial_urls.getD []).drop (cd.current_url_index.getD 0)

/-- ResumeService.resume_pipeline (resume_service.py lines 24-63): none
when no state is saved; a completed state is returned unchanged; otherwise
the state is set to running and the remaining suffix is processed (or the
run is closed out when nothing remains).  The second component is the
save_state trace. -/
def resume_pipeline (oracle : Oracle) (maxRetries : Nat) (now : DT) :
    Option PipelineState → Option (PipelineState × List PipelineState)
  | none => none
  | some st =>
    if st.status == "completed" then some (st, [])
    else
      let st1 := update_state st { status := some "running" } now
      match st1.checkpoint_data with
      | none => some (st1, [])
      | some cd =>
        if cd.isEmptyDict then some (st1, [])
        else
          let remaining := resume_remaining st1
          if remaining.isEmpty then
            let st2 := update_state st1 { status := some "completed" } now
            some (st2, [st2])
          else some (process_remaining_urls oracle maxRetries now remaining st1)

/-- One iteration of the for-loop of
ResumeService.restart_pipeline_from_scratch (resume_service.py lines
135-167): checkpoint position i, then a single attempt with no retry;
a raised error or a false success flag sends the URL to failed_urls. -/
def restartUnitStep (oracle : Oracle) (st : PipelineState) (i : Nat)
    (url : Url) : PipelineState :=
  let st1 := update_checkpoint_data st
    { initial_urls := none
      current_url_index := some i
      last_processed_url := some (some url) }
  match oracle url 0 with
  | .success n => increment_chunk_count (add_processed_url st1 url) n
  | .noChunks => add_processed_url st1 url
  | .storeFalse => add_failed_url st1 url
  | .raise _ => add_failed_url st1 url

/-- The for-loop of restart_pipeline_from_scratch with save trace. -/
def restartGo (oracle : Oracle) :
    List (Nat × Url) → PipelineState → PipelineState × List PipelineState
  | [], st => (st, [])
  | (i, url) :: rest, st =>
    let st' := restartUnitStep oracle st i url
    let r := restartGo oracle rest st'
    (r.1, st' :: r.2)

/-- ResumeService.restart_pipeline_from_scratch (resume_service.py lines
124-173): fresh initial state (saved), per-URL processing (saved after each
URL), final completion (saved).  The second component is the save_state
trace, whose entry at position k+1 is the state persisted right after the
k-th URL finished and before the next URL starts. -/
def restart_pipeline_from_scratch (oracle : Oracle) (session_id : String)
    (urls : List Url) (now : DT) : PipelineState × List PipelineState :=
  let st0 := create_initial_state session_id urls now
  let r := restartGo oracle urls.enum st0
  let fin := update_state r.1 { status := some "completed" } now
  (fin, st0 :: r.2 ++ [fin])

/-- ResumeService.validate_resume_state (resume_service.py lines 221-247):
refuse when the state is missing, its checkpoint data is falsy, the
checkpointed initial URL list is missing or empty, or the processed count
has reached the total count. -/
def validate_resume_state : Option PipelineState → Bool
  | none => false
  | some st =>
    match st.checkpoint_data with
    | none => false
    | some cd =>
      if cd.isEmptyDict then false
      else
        let initial := cd.initial_urls.getD []
        if initial.isEmpty then false
        else decide (st.processed_urls.length < initial.length)

/-- Modelled from the claim wording for resume validation: the state
exists, its checkpoint data contains a non-empty original work list, and
processed_work has not already covered that list entirely. -/
def validateResumeSpec : Option PipelineState → Bool
  | none => false
  | some st =>
    match st.checkpoint_data with
    | none => false
    | some cd =>
      let initial := cd.initial_urls.getD []
      !initial.isEmpty && !(initial.all fun u => st.processed_urls.contains u)

/-- Modelled from the spec wording: the order-preserving set difference of
the original work list against the processed work. -/
def orderedSetDiff (initial processed : List Url) : List Url :=
  initial.filter fun u => !(processed.contains u)

/-- The StateService mutations a run applies to its PipelineState
(state_service.py lines 133-178). -/
inductive Mutation where
  | addProcessed (u : Url)
  | addFailed (u : Url)
  | incChunks (n : Nat)
  | updCheckpoint (upd : CheckpointData)
deriving Repr, DecidableEq

/-- Apply one StateService mutation. -/
def applyMutation (st : PipelineState) : Mutation → PipelineState
  | .addProcessed u => add_processed_url st u
  | .addFailed u => add_failed_url st u
  | .incChunks n => increment_chunk_count st n
  | .updCheckpoint upd => update_checkpoint_data st upd

/-- Apply a sequence of StateService mutations in order. -/
def applyMutations (st : PipelineState) (ms : List Mutation) : PipelineState :=
  ms.foldl applyMutation st

/-- Condition on a mutation sequence: no URL is both recorded processed and
recorded failed, nor recorded into a list that already holds it on the
other side. -/
def mutationSeqOk (st : PipelineState) (ms : List Mutation) : Bool :=
  ms.all fun m =>
    match m with
    | .addProcessed u =>
      !(decide (u ∈ st.failed_urls)) && !(decide (Mutation.addFailed u ∈ ms))
    | .addFailed u => !(decide (u ∈ st.processed_urls))
    | _ => true

/-- Append-only growth of a list: the first list is an initial segment of
the second. -/
def InitSeg (l₁ l₂ : List Url) : Prop := ∃ t, l₂ = l₁ ++ t

/-- C10: for every well-formed PipelineState, deserializing its serialized
form returns an equal state, PipelineState.from_dict (state.to_dict) =
state, including the case where end_time is unset. -/
theorem from_dict_to_dict_roundtrip (s : PipelineState) :
    PipelineState.from_dict (PipelineState.to_dict s) = s := by
  cases s with
  | mk sid status t e p f tc pc cd em => cases e <;> rfl

/-- C6: for every error message, should_retry_error returns true exactly
when the classified kind is network, server or rate_limit, and errors
classified as authentication or client are never retried. -/
theorem should_retry_error_iff_kind (msg : String) :
    (should_retry_error msg = true ↔
      categorize_error msg = "network" ∨ categorize_error msg = "server" ∨
        categorize_error msg = "rate_limit") ∧
    ((categorize_error msg = "authentication" ∨ categorize_error msg = "client") →
      should_retry_error msg = false) := by
  constructor
  · simp [should_retry_error]
  · intro h
    show (["network", "server", "rate_limit"].contains (categorize_error msg)) = false
    rcases h with h | h <;> rw [h] <;> decide

/-- C6 witness: a message classified as authentication is not retried. -/
theorem should_retry_error_iff_kind_witness :
    should_retry_error "unauthorized access" = false :=
  (should_retry_error_iff_kind "unauthorized access").2 (Or.inl (by decide))

/-- C7: an update_state call that sets status to completed or failed stamps
end_time with the current time when it is unset, leaves an already-set
end_time unchanged, and leaves every field not named in the update
unchanged. -/
theorem update_state_stamps_end_time (st : PipelineState) (u : StateUpd) (now : DT)
    (hs : u.status = some "completed" ∨ u.status = some "failed")
    (he : u.end_time = none) :
    (st.end_time = none → (update_state st u now).end_time = some now) ∧
    (∀ t, st.end_time = some t → (update_state st u now).end_time = some t) ∧
    (u.session_id = none → (update_state st u now).session_id = st.session_id) ∧
    (u.start_time = none → (update_state st u now).start_time = st.start_time) ∧
    (u.processed_urls = none → (update_state st u now).processed_urls = st.processed_urls) ∧
    (u.failed_urls = none → (update_state st u now).failed_urls = st.failed_urls) ∧
    (u.total_chunks = none → (update_state st u now).total_chunks = st.total_chunks) ∧
    (u.processed_chunks = none →
      (update_state st u now).processed_chunks = st.processed_chunks) ∧
    (u.checkpoint_data = none →
      (update_state st u now).checkpoint_data = st.checkpoint_data) ∧
    (u.error_message = none → (update_state st u now).error_message = st.error_message) := by
  rcases hs with h | h <;>
    cases hE : st.end_time <;>
      simp_all [update_state, he]

/-- C7 witness: updating a state that carries end_time 5 into completed
keeps end_time 5 and the untouched fields, at a concrete state. -/
theorem update_state_stamps_end_time_witness :
    let st : PipelineState :=
      { session_id := "s1", status := "running", start_time := 1,
        end_time := some 5, processed_urls := ["u1"], failed_urls := [],
        total_chunks := 2, processed_chunks := 1, checkpoint_data := none,
        error_message := none }
    let u : StateUpd := { status := some "completed" }
    (st.end_time = none → (update_state st u 9).end_time = some 9) ∧
    (∀ t, st.end_time = some t → (update_state st u 9).end_time = some t) ∧
    (u.session_id = none → (update_state st u 9).session_id = st.session_id) ∧
    (u.start_time = none → (update_state st u 9).start_time = st.start_time) ∧
    (u.processed_urls = none → (update_state st u 9).processed_urls = st.processed_urls) ∧
    (u.failed_urls = none → (update_state st u 9).failed_urls = st.failed_urls) ∧
    (u.total_chunks = none → (update_state st u 9).total_chunks = st.total_chunks) ∧
    (u.processed_chunks = none →
      (update_state st u 9).processed_chunks = st.processed_chunks) ∧
    (u.checkpoint_data = none →
      (update_state st u 9).checkpoint_data = st.checkpoint_data) ∧
    (u.error_message = none → (update_state st u 9).error_message = st.error_message) :=
  update_state_stamps_end_time _ _ 9 (Or.inl rfl) rfl

/-- Helper: under an always-failing operation the retry loop runs through
all remaining attempts and re-raises the error of the last one. -/
theorem retryGo_always_error {α : Type} (op : RetryOp α) (e : Nat → String)
    (h : ∀ i, op i = .error (e i)) :
    ∀ r attempt, retryGo op r attempt = (.error (e (attempt + r)), attempt + r + 1) := by
  intro r
  induction r with
  | zero => intro attempt; simp [retryGo, h attempt]
  | succ k ih =>
    intro attempt
    have := ih (attempt + 1)
    have hA : attempt + 1 + k = attempt + (k + 1) := by omega
    simp only [retryGo, h attempt]
    rw [this, hA]

/-- C2 counterexample: retry_with_backoff with max_retries = 3 on an
operation that raises a retryable network error on every call invokes the
operation 4 times (the loop is range(max_retries + 1)), not the 3 times the
claim states. -/
theorem retry_with_backoff_not_three_invocations :
    (retry_with_backoff (fun _ => (.error "connection timeout" : Except String Nat)) 3).2 = 4 ∧
    (retry_with_backoff (fun _ => (.error "connection timeout" : Except String Nat)) 3).2 ≠ 3 := by
  decide

/-- C2 amended: retry_with_backoff(op, max_retries = m) on an operation
that fails on every call invokes it exactly m + 1 times (one initial call
plus m retries) and re-raises the final error; on an operation that fails
once and succeeds on its 2nd call it invokes it exactly 2 times and returns
its result. -/
theorem retry_with_backoff_invocation_counts {α : Type}
    (op₁ op₂ : RetryOp α) (e : Nat → String) (a : α) (m : Nat)
    (h₁ : ∀ i, op₁ i = .error (e i))
    (h₂₀ : ∃ s, op₂ 0 = .error s) (h₂₁ : op₂ 1 = .ok a) (hm : 1 ≤ m) :
    retry_with_backoff op₁ m = (.error (e m), m + 1) ∧
    retry_with_backoff op₂ m = (.ok a, 2) := by
  constructor
  · have := retryGo_always_error op₁ e h₁ m 0
    simpa [retry_with_backoff] using this
  · obtain ⟨k, rfl⟩ : ∃ k, m = k + 1 := ⟨m - 1, by omega⟩
    obtain ⟨s, hs⟩ := h₂₀
    simp only [retry_with_backoff, retryGo, hs]
    cases k <;> simp [retryGo, h₂₁]

/-- C2 witness: the amended counts at max_retries = 3, with an always
failing operation and one succeeding on its 2nd call. -/
theorem retry_with_backoff_invocation_counts_witness :
    retry_with_backoff (fun _ => (.error "connection timeout" : Except String Nat)) 3 =
      (.error "connection timeout", 4) ∧
    retry_with_backoff
        (fun i => if i = 0 then .error "connection timeout" else (.ok 7 : Except String Nat)) 3 =
      (.ok 7, 2) :=
  retry_with_backoff_invocation_counts _ _ (fun _ => "connection timeout") 7 3
    (fun _ => rfl) ⟨"connection timeout", rfl⟩ rfl (by decide)

/-- Helper: reading back the key just assigned in an association list. -/
theorem lookupD_setKey_self {α : Type} (l : List (String × α)) (k : String)
    (v : α) (d : α) : lookupD (setKey l k v) k d = v := by
  simp [lookupD, setKey, List.find?]

/-- Helper: recording requests never touches the delay configuration. -/
theorem record_request_preserves_delays (L : CrawlLimiter) (host : String)
    (b : Bool) : (record_request L host b).domain_delays = L.domain_delays ∧
      (record_request L host b).default_delay = L.default_delay := by
  cases b <;> simp [record_request]

/-- Helper: a run of failures never touches the delay configuration. -/
theorem recordFailures_preserves_delays (L : CrawlLimiter) (host : String)
    (n : Nat) : (recordFailures L host n).domain_delays = L.domain_delays ∧
      (recordFailures L host n).default_delay = L.default_delay := by
  induction n with
  | zero => exact ⟨rfl, rfl⟩
  | succ k ih =>
    have h := record_request_preserves_delays (recordFailures L host k) host false
    exact ⟨h.1.trans ih.1, h.2.trans ih.2⟩

/-- Helper: starting from a clean host, n recorded failures leave a failure
count of n. -/
theorem recordFailures_count (L : CrawlLimiter) (host : String)
    (h0 : lookupD L.failed_requests host 0 = 0) :
    ∀ n, lookupD (recordFailures L host n).failed_requests host 0 = n := by
  intro n
  induction n with
  | zero => exact h0
  | succ k ih =>
    simp [recordFailures, record_request, lookupD_setKey_self, ih]

/-- C9 counterexample: for a host with the default base delay 1.0 and 6
consecutive recorded failures the code returns a delay of 32.0 seconds,
because the doubling exponent is additionally clamped at 5; doubling per
consecutive failure capped at 60 seconds would give min(1 * 2^6, 60) =
60.0. -/
theorem should_delay_request_counterexample :
    should_delay_request ⟨1, [], [("h", 6)]⟩ "h" = 32 ∧
    min ((1 : ℚ) * 2 ^ (6 : Nat)) 60 = 60 ∧ (32 : ℚ) ≠ 60 := by
  refine ⟨?_, by norm_num, by norm_num⟩
  norm_num [should_delay_request, lookupD, List.find?]

/-- C9 amended: for a host with no prior failures, n ≥ 1 consecutive
recorded failures raise the effective delay to the base delay doubled per
consecutive failure with the exponent clamped at 5, capped at 60 seconds:
min(base * 2^min(n,5), 60); a recorded success resets the effective delay
to the base delay. -/
theorem should_delay_request_backoff (L : CrawlLimiter) (host : String) (n : Nat)
    (h0 : lookupD L.failed_requests host 0 = 0) (hn : 1 ≤ n) :
    should_delay_request (recordFailures L host n) host =
      min (lookupD L.domain_delays host L.default_delay * 2 ^ min n 5) 60 ∧
    should_delay_request (record_request L host true) host =
      lookupD L.domain_delays host L.default_delay := by
  constructor
  · have hc := recordFailures_count L host h0 n
    have hd := recordFailures_preserves_delays L host n
    have hpos : 0 < n := hn
    simp [should_delay_request, hc, hd.1, hd.2, hpos]
  · simp [should_delay_request, record_request, lookupD_setKey_self]

/-- C9 witness: the amended delay formula and the success reset at a
concrete limiter with base delay 1 and 2 consecutive failures. -/
theorem should_delay_request_backoff_witness :
    should_delay_request (recordFailures ⟨1, [], []⟩ "h" 2) "h" =
      min (lookupD ([] : List (String × ℚ)) "h" 1 * 2 ^ min 2 5) 60 ∧
    should_delay_request (record_request ⟨1, [], []⟩ "h" true) "h" =
      lookupD ([] : List (String × ℚ)) "h" 1 :=
  should_delay_request_backoff ⟨1, [], []⟩ "h" 2 rfl (by decide)

/-- Helper: the seen-hash set of the code loops coincides with the
fingerprints of the earlier chunks carried by the claim-side scan, so the
two code loops compute the claim-side partition. -/
theorem dedupGo_spec (cs : List DocumentChunk) :
    ∀ seen earlier,
      (∀ h, h ∈ seen ↔ ∃ d ∈ earlier, contentHash d = h) →
      detectDupsGo cs seen =
          (specDups cs earlier).map (fun c => ⟨c.id, c.source_url⟩) ∧
        removeDupsGo cs seen = specUniques cs earlier := by
  induction cs with
  | nil => intro seen earlier _; exact ⟨rfl, rfl⟩
  | cons c cs ih =>
    intro seen earlier hinv
    by_cases hcs : contentHash c ∈ seen
    · have hb : (earlier.any fun d => contentHash d == contentHash c) = true := by
        obtain ⟨d, hd, hdh⟩ := (hinv _).mp hcs
        exact List.any_eq_true.mpr ⟨d, hd, by simp [hdh]⟩
      have hinv' : ∀ h, h ∈ seen ↔ ∃ d ∈ earlier ++ [c], contentHash d = h := by
        intro h
        constructor
        · intro hh
          obtain ⟨d, hd, hdh⟩ := (hinv h).mp hh
          exact ⟨d, by simp [hd], hdh⟩
        · rintro ⟨d, hd, hdh⟩
          rcases List.mem_append.mp hd with hd' | hd'
          · exact (hinv h).mpr ⟨d, hd', hdh⟩
          · have hdc : d = c := by simpa using hd'
            subst hdc
            subst hdh
            exact hcs
      obtain ⟨h1, h2⟩ := ih seen (earlier ++ [c]) hinv'
      constructor
      · simp [detectDupsGo, specDups, hcs, hb, h1]
      · simp [removeDupsGo, specUniques, hcs, hb, h2]
    · have hb : (earlier.any fun d => contentHash d == contentHash c) = false := by
        rw [Bool.eq_false_iff]
        intro hany
        obtain ⟨d, hd, hdh⟩ := List.any_eq_true.mp hany
        exact hcs ((hinv _).mpr ⟨d, hd, by simpa using hdh⟩)
      have hinv' : ∀ h,
          h ∈ contentHash c :: seen ↔ ∃ d ∈ earlier ++ [c], contentHash d = h := by
        intro h
        constructor
        · intro hh
          rcases List.mem_cons.mp hh with hh' | hh'
          · exact ⟨c, by simp, hh'.symm⟩
          · obtain ⟨d, hd, hdh⟩ := (hinv h).mp hh'
            exact ⟨d, by simp [hd], hdh⟩
        · rintro ⟨d, hd, hdh⟩
          rcases List.mem_append.mp hd with hd' | hd'
          · exact List.mem_cons_of_mem _ ((hinv h).mpr ⟨d, hd', hdh⟩)
          · have hdc : d = c := by simpa using hd'
            subst hdc
            subst hdh
            exact List.mem_cons_self _ _
      obtain ⟨h1, h2⟩ := ih (contentHash c :: seen) (earlier ++ [c]) hinv'
      constructor
      · simp [detectDupsGo, specDups, hcs, hb, h1]
      · simp [removeDupsGo, specUniques, hcs, hb, h2]

/-- Helper: every chunk of a batch lands in exactly one side of the
claim-side partition. -/
theorem specPartition_length (cs : List DocumentChunk) :
    ∀ earlier,
      (specUniques cs earlier).length + (specDups cs earlier).length = cs.length := by
  induction cs with
  | nil => intro earlier; simp [specUniques, specDups]
  | cons c cs ih =>
    intro earlier
    have hI := ih (earlier ++ [c])
    by_cases hb : (earlier.any fun d => contentHash d == contentHash c) = true
    · simp [specUniques, specDups, hb]
      omega
    · simp [specUniques, specDups, hb]
      omega

/-- Helper: the unique chunks kept by remove_duplicates_by_content form a
sublist of the input, so input order is preserved. -/
theorem removeDupsGo_sublist (cs : List DocumentChunk) :
    ∀ seen, List.Sublist (removeDupsGo cs seen) cs := by
  induction cs with
  | nil => intro seen; simp [removeDupsGo]
  | cons c cs ih =>
    intro seen
    by_cases hcs : contentHash c ∈ seen
    · simp only [removeDupsGo, hcs, if_true]
      exact List.Sublist.cons c (ih seen)
    · simp only [removeDupsGo, hcs, if_false]
      exact List.Sublist.cons₂ c (ih (contentHash c :: seen))

/-- C5: for every batch of chunks, remove_duplicates_by_content returns
exactly the chunks with no fingerprint-equal chunk earlier in the batch,
in input order (a sublist of the batch), of length batch size minus the
number k of fingerprint-equal duplicates of earlier chunks; and
detect_duplicates_by_content reports exactly those k duplicates, each with
its own chunk id and source URL. -/
theorem dedup_partition_correct (chunks : List DocumentChunk) :
    remove_duplicates_by_content chunks = specUniques chunks [] ∧
    detect_duplicates_by_content chunks =
      (specDups chunks []).map (fun c => ⟨c.id, c.source_url⟩) ∧
    (remove_duplicates_by_content chunks).length + (specDups chunks []).length =
      chunks.length ∧
    List.Sublist (remove_duplicates_by_content chunks) chunks := by
  have h := dedupGo_spec chunks [] [] (by simp)
  refine ⟨h.2, h.1, ?_, removeDupsGo_sublist chunks []⟩
  have := specPartition_length chunks []
  rw [remove_duplicates_by_content, h.2]
  exact this

/-- C8 counterexample: a state whose processed_urls holds a single URL that
is not part of the checkpointed work list ["u1"]: the list is not covered
at all, so the claim says the resume is accepted, but the code compares
counts (1 processed, 1 total) and refuses. -/
theorem validate_resume_state_counterexample :
    validate_resume_state
        (some ⟨"s", "failed", 0, none, ["a"], [], 0, 0,
          some ⟨some ["u1"], none, none⟩, none⟩) = false ∧
    validateResumeSpec
        (some ⟨"s", "failed", 0, none, ["a"], [], 0, 0,
          some ⟨some ["u1"], none, none⟩, none⟩) = true := by
  decide

/-- C8 amended: validate_resume_state returns true if and only if the state
exists, its checkpoint data contains a non-empty original work list, and
the number of processed URLs is strictly below the length of that list
(a count comparison, not coverage of the list). -/
theorem validate_resume_state_iff (ost : Option PipelineState) :
    validate_resume_state ost = true ↔
      ∃ st cd, ost = some st ∧ st.checkpoint_data = some cd ∧
        cd.initial_urls.getD [] ≠ [] ∧
        st.processed_urls.length < (cd.initial_urls.getD []).length := by
  cases ost with
  | none => simp [validate_resume_state]
  | some st =>
    cases hcd : st.checkpoint_data with
    | none => simp [validate_resume_state, hcd]
    | some cd =>
      simp only [validate_resume_state, hcd]
      constructor
      · intro h
        by_cases he : cd.isEmptyDict = true
        · simp [he] at h
        · by_cases hi : (cd.initial_urls.getD []).isEmpty = true
          · simp [he, hi] at h
          · simp only [he, hi, if_false, Bool.false_eq_true] at h
            simp only [if_neg, decide_eq_true_eq] at h
            refine ⟨st, cd, rfl, hcd, ?_, h⟩
            intro hnil
            rw [hnil] at hi
            simp at hi
      · rintro ⟨st', cd', hst, hcd', hne, hlt⟩
        injection hst with h1
        subst h1
        rw [hcd] at hcd'
        injection hcd' with h2
        subst h2
        have he : cd.isEmptyDict = false := by
          cases hiu : cd.initial_urls with
          | none => rw [hiu] at hne; simp at hne
          | some l => simp [CheckpointData.isEmptyDict, hiu]
        have hi : (cd.initial_urls.getD []).isEmpty = false := by
          cases hiu : cd.initial_urls.getD [] with
          | nil => rw [hiu] at hne; simp at hne
          | cons a l => rfl
        simp [he, hi, hlt]

/-- C8 witness: the amended characterization accepts a concrete resumable
state with one pending URL. -/
theorem validate_resume_state_iff_witness :
    validate_resume_state
        (some ⟨"s", "failed", 0, none, [], [], 0, 0,
          some ⟨some ["u1"], none, none⟩, none⟩) = true :=
  (validate_resume_state_iff _).mpr
    ⟨_, _, rfl, rfl, by decide, by decide⟩

/-- C1 counterexample: run the pipeline over the work list
["u1", "u2", "u3"] and interrupt it right after u1 was persisted as
processed and before u2 starts (save-trace entry 1 of
restart_pipeline_from_scratch).  That snapshot has checkpoint index 0 and
processed_urls = ["u1"]; resume_pipeline recomputes the remaining work as
an index suffix, giving ["u1", "u2", "u3"], not the order-preserving set
difference ["u2", "u3"] the claim requires. -/
theorem resume_remaining_counterexample :
    let oracle : Oracle := fun _ _ => .success 2
    let trace := (restart_pipeline_from_scratch oracle "run1" ["u1", "u2", "u3"] 0).2
    let persisted := trace.getD 1 (create_initial_state "x" [] 0)
    persisted.status = "running" ∧
    persisted.processed_urls = ["u1"] ∧
    resume_remaining persisted = ["u1", "u2", "u3"] ∧
    orderedSetDiff
        ((persisted.checkpoint_data.getD ⟨none, none, none⟩).initial_urls.getD [])
        persisted.processed_urls = ["u2", "u3"] ∧
    resume_remaining persisted ≠
      orderedSetDiff
        ((persisted.checkpoint_data.getD ⟨none, none, none⟩).initial_urls.getD [])
        persisted.processed_urls := by
  decide

/-- C1 amended: resume_pipeline computes the remaining work as the index
suffix initial_urls[current_url_index:] of the checkpoint, not as a set
difference; the suffix coincides with the order-preserving set difference
initial_work_list − processed_work exactly in the consistent situation
where processed_urls is precisely the first current_url_index entries of a
duplicate-free initial work list. -/
theorem resume_remaining_eq_setDiff (st : PipelineState) (cd : CheckpointData)
    (hcd : st.checkpoint_data = some cd)
    (htake : (cd.initial_urls.getD []).take (cd.current_url_index.getD 0) =
      st.processed_urls)
    (hnd : (cd.initial_urls.getD []).Nodup) :
    resume_remaining st =
      orderedSetDiff (cd.initial_urls.getD []) st.processed_urls := by
  have hsplit := List.take_append_drop (cd.current_url_index.getD 0) (cd.initial_urls.getD [])
  have hdisj := List.disjoint_take_drop hnd
    (le_refl (cd.current_url_index.getD 0))
  have hA : ((cd.initial_urls.getD []).take (cd.current_url_index.getD 0)).filter
      (fun u => !(st.processed_urls.contains u)) = [] := by
    rw [List.filter_eq_nil_iff]
    intro a ha
    rw [htake] at ha
    simpa using ha
  have hB : ((cd.initial_urls.getD []).drop (cd.current_url_index.getD 0)).filter
      (fun u => !(st.processed_urls.contains u)) =
      (cd.initial_urls.getD []).drop (cd.current_url_index.getD 0) := by
    rw [List.filter_eq_self]
    intro a ha
    have hna : a ∉ st.processed_urls := by
      rw [← htake]
      intro hin
      exact (hdisj hin) ha
    simp [hna]
  calc resume_remaining st
      = (cd.initial_urls.getD []).drop (cd.current_url_index.getD 0) := by
        simp [resume_remaining, hcd]
    _ = orderedSetDiff (cd.initial_urls.getD []) st.processed_urls := by
        rw [orderedSetDiff, ← hsplit, List.filter_append, hA, hB]
        simp

/-- C1 witness: the amended equivalence at a consistent concrete state,
checkpoint index 1 with processed_urls = ["u1"]. -/
theorem resume_remaining_eq_setDiff_witness :
    resume_remaining
        ⟨"s", "failed", 0, none, ["u1"], [], 0, 0,
          some ⟨some ["u1", "u2"], some 1, none⟩, none⟩ =
      orderedSetDiff ["u1", "u2"] ["u1"] :=
  resume_remaining_eq_setDiff
    ⟨"s", "failed", 0, none, ["u1"], [], 0, 0,
      some ⟨some ["u1", "u2"], some 1, none⟩, none⟩
    ⟨some ["u1", "u2"], some 1, none⟩ rfl (by decide) (by decide)

/-- Helper: InitSeg is reflexive. -/
theorem initSeg_refl (l : List Url) : InitSeg l l := ⟨[], by simp⟩

/-- Helper: InitSeg is transitive. -/
theorem initSeg_trans {l₁ l₂ l₃ : List Url} (h₁ : InitSeg l₁ l₂)
    (h₂ : InitSeg l₂ l₃) : InitSeg l₁ l₃ := by
  obtain ⟨t₁, rfl⟩ := h₁
  obtain ⟨t₂, rfl⟩ := h₂
  exact ⟨t₁ ++ t₂, by simp⟩

/-- Helper: initial segments preserve membership. -/
theorem initSeg_mem {l₁ l₂ : List Url} (h : InitSeg l₁ l₂) {u : Url}
    (hu : u ∈ l₁) : u ∈ l₂ := by
  obtain ⟨t, rfl⟩ := h
  exact List.mem_append_left _ hu

/-- Helper: membership after add_processed_url. -/
theorem add_processed_url_mem (st : PipelineState) (u v : Url) :
    v ∈ (add_processed_url st u).processed_urls ↔
      v ∈ st.processed_urls ∨ v = u := by
  by_cases h : u ∈ st.processed_urls
  · simp only [add_processed_url, if_pos h]
    constructor
    · exact Or.inl
    · rintro (hv | rfl)
      · exact hv
      · exact h
  · simp [add_processed_url, if_neg h]

/-- Helper: add_processed_url does not touch failed_urls. -/
theorem add_processed_url_failed (st : PipelineState) (u : Url) :
    (add_processed_url st u).failed_urls = st.failed_urls := by
  by_cases h : u ∈ st.processed_urls <;> simp [add_processed_url, h]

/-- Helper: membership after add_failed_url. -/
theorem add_failed_url_mem (st : PipelineState) (u v : Url) :
    v ∈ (add_failed_url st u).failed_urls ↔
      v ∈ st.failed_urls ∨ v = u := by
  by_cases h : u ∈ st.failed_urls
  · simp only [add_failed_url, if_pos h]
    constructor
    · exact Or.inl
    · rintro (hv | rfl)
      · exact hv
      · exact h
  · simp [add_failed_url, if_neg h]

/-- Helper: add_failed_url does not touch processed_urls. -/
theorem add_failed_url_processed (st : PipelineState) (u : Url) :
    (add_failed_url st u).processed_urls = st.processed_urls := by
  by_cases h : u ∈ st.failed_urls <;> simp [add_failed_url, h]

/-- Helper: every single StateService mutation only appends to the two URL
lists. -/
theorem applyMutation_initSeg (st : PipelineState) (m : Mutation) :
    InitSeg st.processed_urls (applyMutation st m).processed_urls ∧
      InitSeg st.failed_urls (applyMutation st m).failed_urls := by
  cases m with
  | addProcessed u =>
    by_cases h : u ∈ st.processed_urls
    · exact ⟨⟨[], by simp [applyMutation, add_processed_url, h]⟩,
        ⟨[], by simp [applyMutation, add_processed_url, h]⟩⟩
    · exact ⟨⟨[u], by simp [applyMutation, add_processed_url, h]⟩,
        ⟨[], by simp [applyMutation, add_processed_url, h]⟩⟩
  | addFailed u =>
    by_cases h : u ∈ st.failed_urls
    · exact ⟨⟨[], by simp [applyMutation, add_failed_url, h]⟩,
        ⟨[], by simp [applyMutation, add_failed_url, h]⟩⟩
    · exact ⟨⟨[], by simp [applyMutation, add_failed_url, h]⟩,
        ⟨[u], by simp [applyMutation, add_failed_url, h]⟩⟩
  | incChunks n => exact ⟨initSeg_refl _, initSeg_refl _⟩
  | updCheckpoint upd => exact ⟨initSeg_refl _, initSeg_refl _⟩

/-- Helper: mutation sequences only append to the two URL lists. -/
theorem applyMutations_initSeg (ms : List Mutation) :
    ∀ st : PipelineState,
      InitSeg st.processed_urls (applyMutations st ms).processed_urls ∧
        InitSeg st.failed_urls (applyMutations st ms).failed_urls := by
  induction ms with
  | nil => intro st; exact ⟨initSeg_refl _, initSeg_refl _⟩
  | cons m ms ih =>
    intro st
    have h1 := applyMutation_initSeg st m
    have h2 := ih (applyMutation st m)
    exact ⟨initSeg_trans h1.1 h2.1, initSeg_trans h1.2 h2.2⟩

/-- Helper: splitting a mutation sequence at position n. -/
theorem applyMutations_take_drop (st : PipelineState) (ms : List Mutation)
    (n : Nat) :
    applyMutations (applyMutations st (ms.take n)) (ms.drop n) =
      applyMutations st ms := by
  unfold applyMutations
  rw [← List.foldl_append, List.take_append_drop]

/-- Helper: the sequence condition restricts to initial parts of the
sequence. -/
theorem mutationSeqOk_take (st : PipelineState) (ms : List Mutation)
    (n : Nat) (h : mutationSeqOk st ms = true) :
    mutationSeqOk st (ms.take n) = true := by
  rw [mutationSeqOk, List.all_eq_true] at h ⊢
  intro m hm
  have hm' : m ∈ ms := List.take_subset n ms hm
  have hx := h m hm'
  cases m with
  | addProcessed u =>
    simp only [Bool.and_eq_true, Bool.not_eq_true', decide_eq_false_iff_not] at hx ⊢
    exact ⟨hx.1, fun hc => hx.2 (List.take_subset n ms hc)⟩
  | addFailed u => exact hx
  | incChunks k => exact hx
  | updCheckpoint upd => exact hx

/-- Helper: disjointness of the two URL lists is preserved by any mutation
sequence in which no URL is recorded on both sides. -/
theorem mutations_preserve_disjoint :
    ∀ (ms : List Mutation) (st : PipelineState),
      (∀ u ∈ st.processed_urls, u ∉ st.failed_urls) →
      mutationSeqOk st ms = true →
      ∀ u ∈ (applyMutations st ms).processed_urls,
        u ∉ (applyMutations st ms).failed_urls := by
  intro ms
  induction ms with
  | nil => intro st hd _; exact hd
  | cons m ms ih =>
    intro st hd hok
    rw [mutationSeqOk, List.all_eq_true] at hok
    have hhead := hok m (by simp)
    cases m with
    | addProcessed u =>
      simp only [Bool.and_eq_true, Bool.not_eq_true', decide_eq_false_iff_not] at hhead
      obtain ⟨hu1, hu2⟩ := hhead
      refine ih (add_processed_url st u) ?_ ?_
      · intro v hv
        rcases (add_processed_url_mem st u v).mp hv with hv' | rfl
        · rw [add_processed_url_failed]; exact hd v hv'
        · rw [add_processed_url_failed]; exact hu1
      · rw [mutationSeqOk, List.all_eq_true]
        intro x hx
        have hx' := hok x (List.mem_cons_of_mem _ hx)
        cases x with
        | addProcessed v =>
          simp only [Bool.and_eq_true, Bool.not_eq_true',
            decide_eq_false_iff_not] at hx' ⊢
          refine ⟨by rw [add_processed_url_failed]; exact hx'.1, ?_⟩
          exact fun hc => hx'.2 (List.mem_cons_of_mem _ hc)
        | addFailed v =>
          simp only [Bool.not_eq_true', decide_eq_false_iff_not] at hx' ⊢
          rw [add_processed_url_mem]
          rintro (hv | rfl)
          · exact hx' hv
          · exact hu2 (List.mem_cons_of_mem _ hx)
        | incChunks k => exact hx'
        | updCheckpoint upd => exact hx'
    | addFailed u =>
      simp only [Bool.not_eq_true', decide_eq_false_iff_not] at hhead
      refine ih (add_failed_url st u) ?_ ?_
      · intro v hv
        rw [add_failed_url_processed] at hv
        rw [add_failed_url_mem]
        rintro (hv' | rfl)
        · exact hd v hv hv'
        · exact hhead hv
      · rw [mutationSeqOk, List.all_eq_true]
        intro x hx
        have hx' := hok x (List.mem_cons_of_mem _ hx)
        cases x with
        | addProcessed v =>
          simp only [Bool.and_eq_true, Bool.not_eq_true',
            decide_eq_false_iff_not] at hx' ⊢
          refine ⟨?_, fun hc => hx'.2 (List.mem_cons_of_mem _ hc)⟩
          rw [add_failed_url_mem]
          rintro (hv | rfl)
          · exact hx'.1 hv
          · exact hx'.2 (List.mem_cons_self _ _)
        | addFailed v =>
          simp only [Bool.not_eq_true', decide_eq_false_iff_not] at hx' ⊢
          rw [add_failed_url_processed]
          exact hx'
        | incChunks k => exact hx'
        | updCheckpoint upd => exact hx'
    | incChunks k =>
      refine ih (increment_chunk_count st k) hd ?_
      rw [mutationSeqOk, List.all_eq_true]
      intro x hx
      have hx' := hok x (List.mem_cons_of_mem _ hx)
      cases x with
      | addProcessed v =>
        simp only [Bool.and_eq_true, Bool.not_eq_true',
          decide_eq_false_iff_not] at hx' ⊢
        exact ⟨hx'.1, fun hc => hx'.2 (List.mem_cons_of_mem _ hc)⟩
      | addFailed v => exact hx'
      | incChunks j => exact hx'
      | updCheckpoint upd => exact hx'
    | updCheckpoint upd =>
      refine ih (update_checkpoint_data st upd) hd ?_
      rw [mutationSeqOk, List.all_eq_true]
      intro x hx
      have hx' := hok x (List.mem_cons_of_mem _ hx)
      cases x with
      | addProcessed v =>
        simp only [Bool.and_eq_true, Bool.not_eq_true',
          decide_eq_false_iff_not] at hx' ⊢
        exact ⟨hx'.1, fun hc => hx'.2 (List.mem_cons_of_mem _ hc)⟩
      | addFailed v => exact hx'
      | incChunks j => exact hx'
      | updCheckpoint upd2 => exact hx'

/-- C3 counterexample: a prior run recorded u2 as failed; on resume u2
succeeds, and add_processed_url appends it without consulting failed_urls,
so the final state holds u2 in both processed_urls and failed_urls — the
disjointness invariant is violated by exactly the resume-after-failure
sequence named in the claim. -/
theorem processed_failed_disjoint_counterexample :
    let st : PipelineState :=
      ⟨"s", "failed", 0, none, ["u1"], ["u2"], 2, 0,
        some ⟨some ["u1", "u2", "u3"], some 1, some (some "u2")⟩, none⟩
    let fin := ((resume_pipeline (fun _ _ => .success 1) 3 0 (some st)).getD
      (st, [])).1
    "u2" ∈ fin.processed_urls ∧ "u2" ∈ fin.failed_urls := by
  decide

/-- C3 amended: across any sequence of StateService mutations starting
from a state with disjoint lists, processed_urls and failed_urls are
append-only — the lists at any intermediate snapshot are initial segments
of the final ones — and every snapshot keeps them disjoint provided no URL
is recorded both as processed and as failed across the run (a resume in
which a previously failed unit later succeeds violates that proviso and
with it the invariant). -/
theorem state_mutations_monotone_disjoint (st : PipelineState)
    (ms : List Mutation)
    (hd : ∀ u ∈ st.processed_urls, u ∉ st.failed_urls)
    (hok : mutationSeqOk st ms = true) (n : Nat) :
    InitSeg (applyMutations st (ms.take n)).processed_urls
        (applyMutations st ms).processed_urls ∧
      InitSeg (applyMutations st (ms.take n)).failed_urls
        (applyMutations st ms).failed_urls ∧
      ∀ u ∈ (applyMutations st (ms.take n)).processed_urls,
        u ∉ (applyMutations st (ms.take n)).failed_urls := by
  refine ⟨?_, ?_, ?_⟩
  · have h := (applyMutations_initSeg (ms.drop n) (applyMutations st (ms.take n))).1
    rwa [applyMutations_take_drop] at h
  · have h := (applyMutations_initSeg (ms.drop n) (applyMutations st (ms.take n))).2
    rwa [applyMutations_take_drop] at h
  · exact mutations_preserve_disjoint (ms.take n) st hd (mutationSeqOk_take st ms n hok)

/-- C3 witness: the amended invariant at a concrete two-mutation run,
observed after the first mutation. -/
theorem state_mutations_monotone_disjoint_witness :
    let st : PipelineState := ⟨"s", "running", 0, none, [], [], 0, 0, none, none⟩
    let ms : List Mutation := [.addProcessed "u1", .addFailed "u2"]
    InitSeg (applyMutations st (ms.take 1)).processed_urls
        (applyMutations st ms).processed_urls ∧
      InitSeg (applyMutations st (ms.take 1)).failed_urls
        (applyMutations st ms).failed_urls ∧
      ∀ u ∈ (applyMutations st (ms.take 1)).processed_urls,
        u ∉ (applyMutations st (ms.take 1)).failed_urls :=
  state_mutations_monotone_disjoint _ _ (by decide) (by decide) 1

/-- Helper: once the success flag is set the while-loop exits at once. -/
theorem urlLoop_success_exit (oracle : Oracle) (url : Url) (m : Nat) :
    ∀ fuel iter retry st,
      urlLoop oracle url m fuel iter retry true st = (st, retry, true) := by
  intro fuel iter retry st
  cases fuel <;> simp [urlLoop]

/-- Helper: once the retry budget is exhausted the while-loop exits at
once. -/
theorem urlLoop_exhausted_exit (oracle : Oracle) (url : Url) (m : Nat) :
    ∀ fuel iter retry st, m ≤ retry →
      urlLoop oracle url m fuel iter retry false st = (st, retry, false) := by
  intro fuel iter retry st hm
  cases fuel with
  | zero => rfl
  | succ f =>
    have hng : ¬(True ∧ retry < m) := by
      rintro ⟨_, hlt⟩
      omega
    simp only [urlLoop]
    rw [if_neg hng]

/-- Helper: one unfolding of the while-loop when the guard holds. -/
theorem urlLoop_step (oracle : Oracle) (url : Url) (m f iter retry : Nat)
    (st : PipelineState) (h : retry < m) :
    urlLoop oracle url m (f + 1) iter retry false st =
      urlLoop oracle url m f (iter + 1)
        (urlStep (oracle url iter) url m st retry).2.1
        (urlStep (oracle url iter) url m st retry).2.2
        (urlStep (oracle url iter) url m st retry).1 := by
  have hg : (True ∧ retry < m) := ⟨trivial, h⟩
  simp only [urlLoop]
  rw [if_pos hg]

/-- Helper: add_processed_url records its URL. -/
theorem add_processed_url_self (st : PipelineState) (u : Url) :
    u ∈ (add_processed_url st u).processed_urls :=
  (add_processed_url_mem st u u).mpr (Or.inr rfl)

/-- Helper: add_failed_url records its URL. -/
theorem add_failed_url_self (st : PipelineState) (u : Url) :
    u ∈ (add_failed_url st u).failed_urls :=
  (add_failed_url_mem st u u).mpr (Or.inr rfl)

/-- Helper: when every attempt outcome for the URL is a success, an empty
chunk list or a raised error (never a returned failure flag), the retry
loop with fuel covering the remaining budget records the URL as processed
or as failed. -/
theorem urlLoop_records (oracle : Oracle) (url : Url) (m : Nat)
    (hx : ∀ i, oracle url i ≠ .storeFalse) :
    ∀ fuel iter retry st, retry < m → m - retry ≤ fuel →
      url ∈ (urlLoop oracle url m fuel iter retry false st).1.processed_urls ∨
        url ∈ (urlLoop oracle url m fuel iter retry false st).1.failed_urls := by
  intro fuel
  induction fuel with
  | zero => intro iter retry st hr hf; omega
  | succ f ih =>
    intro iter retry st hr hf
    rw [urlLoop_step oracle url m f iter retry st hr]
    cases hout : oracle url iter with
    | success n =>
      simp only [urlStep]
      rw [urlLoop_success_exit]
      exact Or.inl (add_processed_url_self st url)
    | noChunks =>
      simp only [urlStep]
      rw [urlLoop_success_exit]
      exact Or.inl (add_processed_url_self st url)
    | storeFalse => exact absurd hout (hx iter)
    | raise msg =>
      simp only [urlStep]
      by_cases hlt : retry + 1 < m
      · simp only [if_pos hlt]
        exact ih (iter + 1) (retry + 1) st hlt (by omega)
      · simp only [if_neg hlt]
        rw [urlLoop_exhausted_exit oracle url m f (iter + 1) (retry + 1) _ (by omega)]
        exact Or.inr (add_failed_url_self st url)

/-- Helper: add_processed_url only appends to processed_urls. -/
theorem add_processed_url_initSeg (st : PipelineState) (u : Url) :
    InitSeg st.processed_urls (add_processed_url st u).processed_urls := by
  by_cases h : u ∈ st.processed_urls
  · exact ⟨[], by simp [add_processed_url, h]⟩
  · exact ⟨[u], by simp [add_processed_url, h]⟩

/-- Helper: add_failed_url only appends to failed_urls. -/
theorem add_failed_url_initSeg (st : PipelineState) (u : Url) :
    InitSeg st.failed_urls (add_failed_url st u).failed_urls := by
  by_cases h : u ∈ st.failed_urls
  · exact ⟨[], by simp [add_failed_url, h]⟩
  · exact ⟨[u], by simp [add_failed_url, h]⟩

/-- Helper: one attempt of the retry loop only appends to the two URL
lists. -/
theorem urlStep_initSeg (out : AttemptOutcome) (url : Url) (m : Nat)
    (st : PipelineState) (retry : Nat) :
    InitSeg st.processed_urls (urlStep out url m st retry).1.processed_urls ∧
      InitSeg st.failed_urls (urlStep out url m st retry).1.failed_urls := by
  cases out with
  | success n =>
    refine ⟨?_, ?_⟩
    · show InitSeg st.processed_urls (add_processed_url st url).processed_urls
      exact add_processed_url_initSeg st url
    · show InitSeg st.failed_urls (add_processed_url st url).failed_urls
      rw [add_processed_url_failed]
      exact initSeg_refl _
  | noChunks =>
    refine ⟨add_processed_url_initSeg st url, ?_⟩
    show InitSeg st.failed_urls (add_processed_url st url).failed_urls
    rw [add_processed_url_failed]
    exact initSeg_refl _
  | storeFalse => exact ⟨initSeg_refl _, initSeg_refl _⟩
  | raise msg =>
    by_cases hlt : retry + 1 < m
    · simp only [urlStep, if_pos hlt]
      exact ⟨initSeg_refl _, initSeg_refl _⟩
    · simp only [urlStep, if_neg hlt]
      refine ⟨?_, add_failed_url_initSeg st url⟩
      rw [add_failed_url_processed]
      exact initSeg_refl _

/-- Helper: the whole retry loop only appends to the two URL lists. -/
theorem urlLoop_initSeg (oracle : Oracle) (url : Url) (m : Nat) :
    ∀ fuel iter retry success st,
      InitSeg st.processed_urls
          (urlLoop oracle url m fuel iter retry success st).1.processed_urls ∧
        InitSeg st.failed_urls
          (urlLoop oracle url m fuel iter retry success st).1.failed_urls := by
  intro fuel
  induction fuel with
  | zero => intro iter retry success st; exact ⟨initSeg_refl _, initSeg_refl _⟩
  | succ f ih =>
    intro iter retry success st
    by_cases hguard : success = false ∧ retry < m
    · simp only [urlLoop, if_pos hguard]
      have h1 := urlStep_initSeg (oracle url iter) url m st retry
      have h2 := ih (iter + 1) (urlStep (oracle url iter) url m st retry).2.1
        (urlStep (oracle url iter) url m st retry).2.2
        (urlStep (oracle url iter) url m st retry).1
      exact ⟨initSeg_trans h1.1 h2.1, initSeg_trans h1.2 h2.2⟩
    · simp only [urlLoop, if_neg hguard]
      exact ⟨initSeg_refl _, initSeg_refl _⟩

/-- Helper: one unit of the resume loop only appends to the two URL
lists. -/
theorem resumeUnitStep_initSeg (oracle : Oracle) (m : Nat)
    (st : PipelineState) (url : Url) :
    InitSeg st.processed_urls
        (resumeUnitStep oracle m st url).processed_urls ∧
      InitSeg st.failed_urls (resumeUnitStep oracle m st url).failed_urls :=
  urlLoop_initSeg oracle url m m 0 0 false _

/-- Helper: the resume loop over a URL list only appends to the two URL
lists. -/
theorem processGo_initSeg (oracle : Oracle) (m : Nat) :
    ∀ (rem : List Url) (st : PipelineState),
      InitSeg st.processed_urls
          (processRemainingGo oracle m rem st).1.processed_urls ∧
        InitSeg st.failed_urls
          (processRemainingGo oracle m rem st).1.failed_urls := by
  intro rem
  induction rem with
  | nil => intro st; exact ⟨initSeg_refl _, initSeg_refl _⟩
  | cons v rest ih =>
    intro st
    have h1 := resumeUnitStep_initSeg oracle m st v
    have h2 := ih (resumeUnitStep oracle m st v)
    exact ⟨initSeg_trans h1.1 h2.1, initSeg_trans h1.2 h2.2⟩

/-- Helper: each URL of the remaining list is recorded as processed or as
failed by the resume loop, when every failing attempt raises. -/
theorem processGo_records (oracle : Oracle) (m : Nat) (hM : 0 < m)
    (hx : ∀ url i, oracle url i ≠ .storeFalse) :
    ∀ (rem : List Url) (st : PipelineState), ∀ url ∈ rem,
      url ∈ (processRemainingGo oracle m rem st).1.processed_urls ∨
        url ∈ (processRemainingGo oracle m rem st).1.failed_urls := by
  intro rem
  induction rem with
  | nil => intro st url h; cases h
  | cons v rest ih =>
    intro st url hmem
    rcases List.mem_cons.mp hmem with rfl | hmem'
    · have hrec := urlLoop_records oracle url m (hx url) m 0 0
        (update_checkpoint_data st
          { initial_urls := none
            current_url_index := some st.processed_urls.length
            last_processed_url := some (some url) })
        hM (by omega)
      have hpres := processGo_initSeg oracle m rest (resumeUnitStep oracle m st url)
      rcases hrec with h | h
      · exact Or.inl (initSeg_mem hpres.1 h)
      · exact Or.inr (initSeg_mem hpres.2 h)
    · exact ih (resumeUnitStep oracle m st v) url hmem'

/-- Helper: the resume loop persists one snapshot per URL. -/
theorem processGo_trace_len (oracle : Oracle) (m : Nat) :
    ∀ (rem : List Url) (st : PipelineState),
      (processRemainingGo oracle m rem st).2.length = rem.length := by
  intro rem
  induction rem with
  | nil => intro st; rfl
  | cons v rest ih =>
    intro st
    simp only [processRemainingGo, List.length_cons]
    rw [ih]

/-- Helper: an update_state call that only sets the status leaves both URL
lists unchanged. -/
theorem update_state_status_lists (st : PipelineState) (s : String) (now : DT) :
    (update_state st { status := some s } now).processed_urls =
        st.processed_urls ∧
      (update_state st { status := some s } now).failed_urls = st.failed_urls := by
  unfold update_state
  dsimp only
  constructor <;> (split <;> rfl)

/-- C4: evaluation of the resume loop at the failing input.  When the
storage call returns success false without raising an exception (reachable
in the source: store_embeddings catches its own exception and returns
False), the while body changes neither the state nor the retry count nor
the success flag, so the loop guard stays true forever: 30 fuelled
iterations are a fixed point, and the unit ends up recorded in neither
processed_urls nor failed_urls, contradicting the claim that the per-unit
loop terminates and records each unit on one of the two sides. -/
theorem resume_loop_storeFalse_fixed_point :
    urlLoop (fun _ _ => .storeFalse) "u1" 3 30 0 0 false
        (update_checkpoint_data (create_initial_state "s" ["u1"] 0)
          ⟨none, some 0, some (some "u1")⟩) =
      (update_checkpoint_data (create_initial_state "s" ["u1"] 0)
        ⟨none, some 0, some (some "u1")⟩, 0, false) ∧
    "u1" ∉ (process_remaining_urls (fun _ _ => .storeFalse) 3 0 ["u1"]
        (create_initial_state "s" ["u1"] 0)).1.processed_urls ∧
    "u1" ∉ (process_remaining_urls (fun _ _ => .storeFalse) 3 0 ["u1"]
        (create_initial_state "s" ["u1"] 0)).1.failed_urls := by
  refine ⟨by decide, by decide, by decide⟩

/-- Supporting theorem: provided every failing attempt surfaces as a
raised exception (never as the returned success-false flag of the fixed
point above), the resume loop does behave as the claim says: it records
every unit of the remaining work list either in processed_urls (success
within the attempt budget) or in failed_urls (after max_retries raised
attempts), continuing past failures, and persists one state snapshot per
unit plus the final snapshot. -/
theorem process_remaining_records_every_unit (oracle : Oracle)
    (maxRetries : Nat) (now : DT) (remaining : List Url) (st : PipelineState)
    (hM : 0 < maxRetries)
    (hx : ∀ url i, oracle url i ≠ .storeFalse) :
    (∀ url ∈ remaining,
        url ∈ (process_remaining_urls oracle maxRetries now remaining st).1.processed_urls ∨
          url ∈ (process_remaining_urls oracle maxRetries now remaining st).1.failed_urls) ∧
      (process_remaining_urls oracle maxRetries now remaining st).2.length =
        remaining.length + 1 := by
  constructor
  · intro url hmem
    have h := processGo_records oracle maxRetries hM hx remaining st url hmem
    unfold process_remaining_urls
    by_cases hs :
        (processRemainingGo oracle maxRetries remaining st).1.status == "running"
    · have hlists := update_state_status_lists
        (processRemainingGo oracle maxRetries remaining st).1 "completed" now
      simp only [hs, if_pos]
      rw [hlists.1, hlists.2]
      exact h
    · simp only [hs, if_neg, Bool.false_eq_true]
      exact h
  · unfold process_remaining_urls
    simp [processGo_trace_len]

/-- Oracle for the claimed scenario: u2 raises a network error on every
attempt, every other URL yields 2 chunks that store successfully. -/
def scenarioOracle : Oracle := fun url _ =>
  if url = "u2" then .raise "connection error" else .success 2

/-- The scenario oracle never returns a success-false storage flag. -/
theorem scenarioOracle_no_storeFalse :
    ∀ url i, scenarioOracle url i ≠ .storeFalse := by
  intro url i
  unfold scenarioOracle
  split <;> simp

/-- Witness of the supporting theorem at the claimed scenario — work list
[u1, u2, u3], u1 and u3 succeed with 2 chunks each, u2 raises on every
attempt — together with the computed final state: processed = [u1, u3],
failed = [u2], status completed, total_chunks = 4 (only u1 and u3), and
4 persisted snapshots. -/
theorem process_remaining_records_every_unit_witness :
    ((∀ url ∈ ["u1", "u2", "u3"],
        url ∈ (process_remaining_urls scenarioOracle 3 0 ["u1", "u2", "u3"]
            (create_initial_state "s" ["u1", "u2", "u3"] 0)).1.processed_urls ∨
          url ∈ (process_remaining_urls scenarioOracle 3 0 ["u1", "u2", "u3"]
            (create_initial_state "s" ["u1", "u2", "u3"] 0)).1.failed_urls) ∧
      (process_remaining_urls scenarioOracle 3 0 ["u1", "u2", "u3"]
          (create_initial_state "s" ["u1", "u2", "u3"] 0)).2.length =
        3 + 1) ∧
    (process_remaining_urls scenarioOracle 3 0 ["u1", "u2", "u3"]
        (create_initial_state "s" ["u1", "u2", "u3"] 0)).1.processed_urls =
      ["u1", "u3"] ∧
    (process_remaining_urls scenarioOracle 3 0 ["u1", "u2", "u3"]
        (create_initial_state "s" ["u1", "u2", "u3"] 0)).1.failed_urls = ["u2"] ∧
    (process_remaining_urls scenarioOracle 3 0 ["u1", "u2", "u3"]
        (create_initial_state "s" ["u1", "u2", "u3"] 0)).1.status = "completed" ∧
    (process_remaining_urls scenarioOracle 3 0 ["u1", "u2", "u3"]
        (create_initial_state "s" ["u1", "u2", "u3"] 0)).1.total_chunks = 4 :=
  ⟨process_remaining_records_every_unit scenarioOracle 3 0 ["u1", "u2", "u3"]
      (create_initial_state "s" ["u1", "u2", "u3"] 0) (by decide)
      scenarioOracle_no_storeFalse,
    by decide, by decide, by decide, by decide⟩

end AIBook
